import Mathlib

/-!
Shallow embedding of the local-SOS store-and-forward pipeline:
the command service (`government-backend/index.js`) and the relay /
SMS gateway (`sms-gateway`, the Express service defining `/sms-receiver`
and `processQueue`).

Modelling conventions:
  - JavaScript numbers that flow through trigonometry (`haversine`) are
    modelled as real numbers; numbers produced by `parseFloat` are
    modelled as rationals (every finite double is rational) and coerced
    to the reals where the source multiplies them through `Math.sin` etc.
  - `parseFloat` itself is kept as a parameter `pf : String → Option ℚ`
    of the parser; `none` models a `NaN` result, so `parseFloat(x) || 0`
    becomes `(pf x).getD 0`.
  - The scan for the nearest base starts from `minD = Infinity`, so the
    first base always replaces the initial state; the accumulator is an
    `Option`, with `none` playing the role of `nearest = null, minD = ∞`.
  - `Infinity.toFixed(2)` evaluates to the string `"Infinity"` in
    JavaScript; the distance rendering reproduces that in the `none`
    branch.
-/

/-! ## Command service: geometry (index.js lines 67–76) -/

noncomputable def toRad (v : ℝ) : ℝ := v * Real.pi / 180

/-- JavaScript `Math.atan2(y, x)`, written with `Real.arctan` by cases on
the quadrant (signed zeros collapse to `0` in the real model). -/
noncomputable def atan2 (y x : ℝ) : ℝ :=
  if 0 < x then Real.arctan (y / x)
  else if x < 0 then
    (if 0 ≤ y then Real.arctan (y / x) + Real.pi else Real.arctan (y / x) - Real.pi)
  else
    (if 0 < y then Real.pi / 2 else if y < 0 then -(Real.pi / 2) else 0)

/-- `haversine(lat1, lon1, lat2, lon2)` from index.js lines 69–76,
with Earth radius 6371 km. -/
noncomputable def haversine (lat1 lon1 lat2 lon2 : ℝ) : ℝ :=
  let R : ℝ := 6371
  let dLat := toRad (lat2 - lat1)
  let dLon := toRad (lon2 - lon1)
  let a := Real.sin (dLat / 2) * Real.sin (dLat / 2) +
    Real.cos (toRad lat1) * Real.cos (toRad lat2) *
      Real.sin (dLon / 2) * Real.sin (dLon / 2)
  let c := 2 * atan2 (Real.sqrt a) (Real.sqrt (1 - a))
  R * c

/-! ## Command service: resource directory and resolution
(index.js lines 110–127) -/

/-- A row of the `safe_bases` table. -/
structure SafeBase where
  id : String
  name : String
  lat : ℝ
  lon : ℝ
  capacity : ℤ
  filled : ℤ

/-- One iteration of the `for (const b of bases)` loop of index.js lines
113–116: `if (d < minD) { minD = d; nearest = b; }`.  The accumulator
`none` stands for `nearest = null, minD = Infinity`, and any distance is
below `Infinity`, so the first base always installs itself. -/
noncomputable def scanStep (dist : SafeBase → ℝ) :
    Option (SafeBase × ℝ) → SafeBase → Option (SafeBase × ℝ)
  | none, b => some (b, dist b)
  | some (n, m), b => if dist b < m then some (b, dist b) else some (n, m)

/-- The full linear scan of index.js lines 110–116. -/
noncomputable def nearestScan (dist : SafeBase → ℝ) (bases : List SafeBase) :
    Option (SafeBase × ℝ) :=
  bases.foldl (scanStep dist) none

/-- The three-way capacity classification of index.js lines 118–124,
with the literal `0.2` read as the rational `2 / 10`. -/
def capacityStatus (capacity filled : ℤ) : String :=
  let free := capacity - filled
  if free ≤ 0 then "FULL"
  else if free < ⌈(capacity : ℚ) * (2 / 10)⌉ then "NEARLY_FULL"
  else "AVAILABLE"

/-- `let capacityStatus = 'AVAILABLE'; if (nearest) {...}` of index.js
lines 118–124. -/
def capacityStatusOf (nearest : Option SafeBase) : String :=
  match nearest with
  | none => "AVAILABLE"
  | some b => capacityStatus b.capacity b.filled

/-- Two-digit rendering of the fractional part of `toFixed(2)`. -/
def pad2 (k : Nat) : String :=
  if k < 10 then "0" ++ toString k else toString k

/-- Decimal rendering of a nonnegative numerator scaled by 100. -/
def fixedRender (m : Nat) : String :=
  toString (m / 100) ++ "." ++ pad2 (m % 100)

/-- JavaScript `x.toFixed(2)` on a finite number: round `x·100` to the
nearest integer, ties toward the larger integer, and print with exactly
two digits after the point. -/
noncomputable def toFixed2 (x : ℝ) : String :=
  let n : ℤ := ⌊x * 100 + 1 / 2⌋
  if n < 0 then "-" ++ fixedRender n.natAbs else fixedRender n.toNat

/-- The template literal of index.js line 127. -/
def ackFmt (sb distStr cs : String) : String :=
  "ACK|SAFEBASE=" ++ sb ++ "|DIST=" ++ distStr ++ "KM|CAPACITY=" ++ cs

/-- Result of index.js lines 110–127: the nearest base with its distance
(`none` when the directory is empty), the capacity status and the ack. -/
structure Resolution where
  nearest : Option (SafeBase × ℝ)
  capacityStatus : String
  ack : String

/-- index.js lines 110–127.  `minD` stays `Infinity` on an empty
directory and `Infinity.toFixed(2)` is the string `"Infinity"`. -/
noncomputable def resolve (bases : List SafeBase) (lat lon : ℝ) : Resolution :=
  let nearest := nearestScan (fun b => haversine lat lon b.lat b.lon) bases
  let cs := capacityStatusOf (nearest.map (fun p => p.1))
  let distKm := match nearest with
    | none => "Infinity"
    | some p => toFixed2 p.2
  { nearest := nearest
    capacityStatus := cs
    ack := ackFmt (match nearest with | none => "NONE" | some p => p.1.id) distKm cs }

/-! ## Command service: payload parsing (index.js lines 88–104) -/

/-- The parse result used by the `/sos` handler (the five derived fields
plus the unstructured flag slot `payload.typeFlag`). -/
structure ParsedEmergency where
  deviceId : String
  lat : ℚ
  lon : ℚ
  type : String
  time : String
  typeFlag : Option String
deriving DecidableEq

/-- JavaScript `s.split(sep)` for a one-character separator, written as
a structural recursion over the character data (`acc` is the current
segment, reversed). -/
def splitCharAux (sep : Char) : List Char → List Char → List String
  | [], acc => [String.mk acc.reverse]
  | c :: cs, acc =>
    if c = sep then String.mk acc.reverse :: splitCharAux sep cs []
    else splitCharAux sep cs (c :: acc)

/-- JavaScript `s.split(sep)` (one-character separator; `"".split(sep)`
is `[""]`, and empty segments are kept). -/
def splitChar (sep : Char) (s : String) : List String :=
  splitCharAux sep s.data []

/-- JavaScript `p.includes('=')`. -/
def hasEq (p : String) : Bool := p.data.any (fun c => c == '=')

/-- `const [k, v] = p.split('=')` — the key is the text before the
first `=`. -/
def tokenKey (p : String) : String := (splitChar '=' p).headD ""

/-- `const [k, v] = p.split('=')` — the value is the second element of
the split, i.e. the text between the first and the second `=`. -/
def tokenVal (p : String) : String := (splitChar '=' p).getD 1 ""

/-- The body of the `for (const p of parts)` loop of index.js lines
91–98, acting on the JavaScript object `payload` modelled as a partial
map from property names to strings. -/
def applyToken (acc : String → Option String) (p : String) :
    String → Option String :=
  if hasEq p then fun q => if q = tokenKey p then some (tokenVal p) else acc q
  else fun q => if q = "typeFlag" then some p else acc q

/-- `raw.split('|')` followed by the property-assignment loop. -/
def payloadOf (raw : String) : String → Option String :=
  (splitChar '|' raw).foldl applyToken (fun _ => none)

/-- JavaScript `v || d` on an optional string: `undefined` and `""` are
falsy. -/
def orFalsy (v : Option String) (d : String) : String :=
  match v with
  | some s => if s = "" then d else s
  | none => d

/-- JavaScript `parseFloat(v) || 0` with `parseFloat` abstracted as
`pf` (`none` = `NaN`, which is falsy; `parseFloat(undefined)` is `NaN`). -/
def floatOr0 (pf : String → Option ℚ) (v : Option String) : ℚ :=
  match v with
  | some s => (pf s).getD 0
  | none => 0

/-- index.js lines 89–104: tokenize on `|`, build the `payload` object,
then project the five fields with their defaults (`nowIso` is the
`new Date().toISOString()` taken at resolution time). -/
def parsePayload (pf : String → Option ℚ) (nowIso : String) (raw : String) :
    ParsedEmergency :=
  let payload := payloadOf raw
  { deviceId := orFalsy (payload "ID") "UNKNOWN"
    lat := floatOr0 pf (payload "LAT")
    lon := floatOr0 pf (payload "LON")
    type := orFalsy (payload "TYPE") "UNKNOWN"
    time := orFalsy (payload "TIME") nowIso
    typeFlag := payload "typeFlag" }

/-! Declarative description of the same parse, used to state the
amended form of the tokenization claim: each token denotes a
key/value pair (bare tokens go to the `typeFlag` slot), and a later
token with the same key overrides an earlier one. -/

/-- The key/value pair a single token denotes. -/
def tokenPair (p : String) : String × String :=
  if hasEq p then (tokenKey p, tokenVal p) else ("typeFlag", p)

/-- Value of the last pair carrying the requested key. -/
def lastValue : List (String × String) → String → Option String
  | [], _ => none
  | kv :: rest, q =>
    match lastValue rest q with
    | some v => some v
    | none => if kv.1 = q then some kv.2 else none

/-- The token pairs of a raw payload, in order. -/
def pairsOf (raw : String) : List (String × String) :=
  (splitChar '|' raw).map tokenPair

/-! ## Command service: the `/sos` handler (index.js lines 80–142) -/

/-- A row of the `sos_events` table. -/
structure SosEvent where
  deviceId : String
  lat : ℚ
  lon : ℚ
  type : String
  time : String
  eventStatus : String
deriving DecidableEq

/-- The command service's persistent stores: `sms_logs` (the Alert
Log, raw message with receipt timestamp), `sos_events`, `safe_bases`. -/
structure BackendState where
  smsLogs : List (String × Nat)
  sosEvents : List SosEvent
  safeBases : List SafeBase

/-- Responses of `POST /sos`. -/
inductive SosResp
  | okAck (ack : String)
  | badRequest (error : String)
  | internalError (error : String)
deriving DecidableEq

/-- Where, if anywhere, an awaited database step after the Alert Log
insert rejects (and is caught by the handler's `catch`): the
`sos_events` insert (line 107) or the `safe_bases` query (line 110). -/
inductive SosFailure
  | noFail
  | atEventInsert
  | atBasesQuery
deriving DecidableEq

/-- index.js lines 80–142.  `raw` is `undefined` or a string; `!raw`
rejects both absence and the empty string.  On the success path the
handler logs the raw message, parses it, inserts the event row, resolves
the nearest base and answers with the ack; a rejected later step leaves
the earlier inserts in place and answers 500. -/
noncomputable def sosHandler (st : BackendState) (raw : Option String)
    (pf : String → Option ℚ) (nowMs : Nat) (nowIso : String)
    (failAt : SosFailure) : BackendState × SosResp :=
  match raw with
  | none => (st, .badRequest "missing raw payload")
  | some r =>
    if r = "" then (st, .badRequest "missing raw payload")
    else
      let st1 : BackendState := { st with smsLogs := st.smsLogs ++ [(r, nowMs)] }
      let parsed := parsePayload pf nowIso r
      match failAt with
      | .atEventInsert => (st1, .internalError "internal")
      | .atBasesQuery =>
        let st2 : BackendState := { st1 with sosEvents := st1.sosEvents ++
          [{ deviceId := parsed.deviceId, lat := parsed.lat, lon := parsed.lon,
             type := parsed.type, time := parsed.time, eventStatus := "received" }] }
        (st2, .internalError "internal")
      | .noFail =>
        let st2 : BackendState := { st1 with sosEvents := st1.sosEvents ++
          [{ deviceId := parsed.deviceId, lat := parsed.lat, lon := parsed.lon,
             type := parsed.type, time := parsed.time, eventStatus := "received" }] }
        let res := resolve st2.safeBases (parsed.lat : ℝ) (parsed.lon : ℝ)
        (st2, .okAck res.ack)

/-! ## Relay / SMS gateway (sms-gateway index.js): state and ingress -/

/-- The `status` strings a RelayMessageRecord may carry. -/
inductive MsgStatus
  | received
  | forwarded
  | queued
deriving DecidableEq

/-- An element of the in-memory `messages` array. -/
structure Msg where
  id : Nat
  raw : String
  receivedAt : Nat
  status : MsgStatus
  ack : Option String
deriving DecidableEq

/-- An element of the in-memory `retryQueue` array. -/
structure QItem where
  id : Nat
  payload : String
  attempts : Nat
  lastError : String
deriving DecidableEq

/-- The gateway's mutable module state: `messages`, `retryQueue`, and
the `isProcessingQueue` flag. -/
structure GatewayState where
  messages : List Msg
  retryQueue : List QItem
  isProcessingQueue : Bool
deriving DecidableEq

/-- Outcome of one awaited `axios.post` to the command service: a
resolved response whose body may or may not contain an `ack` string
(`r.data?.ack`), or a rejection (timeout, connection error, non-2xx
status) carrying `err.message`. -/
inductive ForwardOutcome
  | ok (body : Option String)
  | fail (errMsg : String)
deriving DecidableEq

/-- Responses of `POST /sms-receiver`: 400, 200 with the ack, or 202
with `{queued:true}`. -/
inductive RelayResp
  | badRequest (error : String)
  | okAck (ack : String)
  | acceptedQueued
deriving DecidableEq

/-- The `/sms-receiver` handler (sms-gateway index.js lines 114–141),
atomically: validate, create the record, attempt the one-shot forward
with outcome `fw`, and either mark it forwarded or queue it.  The
`processQueue()` trigger in the failure branch is modelled separately
through `processQueueGuard`. -/
def smsReceiver (st : GatewayState) (payload : Option String)
    (fw : ForwardOutcome) (now : Nat) : GatewayState × RelayResp :=
  match payload with
  | none => (st, .badRequest "missing payload")
  | some p =>
    if p = "" then (st, .badRequest "missing payload")
    else
      let rec0 : Msg :=
        { id := st.messages.length + 1, raw := p, receivedAt := now,
          status := .received, ack := none }
      match fw with
      | .ok body =>
        let ack := body.getD "ACK|UNKNOWN"
        ({ st with messages := st.messages ++
            [{ rec0 with status := .forwarded, ack := some ack }] },
         .okAck ack)
      | .fail e =>
        ({ st with
            messages := st.messages ++ [{ rec0 with status := .queued }],
            retryQueue := st.retryQueue ++
              [{ id := rec0.id, payload := p, attempts := 0, lastError := e }] },
         .acceptedQueued)

/-- The re-entrancy guard at the top of `processQueue` (lines 145–146):
`if (isProcessingQueue) return; isProcessingQueue = true;`.  The boolean
reports whether a new processor instance actually started. -/
def processQueueGuard (st : GatewayState) : GatewayState × Bool :=
  if st.isProcessingQueue then (st, false)
  else ({ st with isProcessingQueue := true }, true)

/-- `Math.min(60000, 1000 * Math.pow(2, attempts))` (line 160). -/
def backoffDelay (attempts : Nat) : Nat := min 60000 (1000 * 2 ^ attempts)

/-- `messages.find((m) => m.id === item.id)` followed by an in-place
mutation of the found record: update the first element with the given
id, leave everything else alone (and do nothing when no record
matches, mirroring `if (msg)`). -/
def updateFirst (ms : List Msg) (i : Nat) (f : Msg → Msg) : List Msg :=
  match ms with
  | [] => []
  | m :: rest => if m.id = i then f m :: rest else m :: updateFirst rest i f

/-! ### Small-step semantics of the gateway's mutations

Each constructor is one run-to-suspension segment of the source:
creating the record up to the `await axios.post` (lines 119–121 + 125),
resuming that await with a resolution or rejection (lines 126–129 /
131–135), and one iteration of the `processQueue` loop (lines 148–162).
The action records what the segment did, including the backoff sleep
duration of a failed queue attempt. -/

/-- Observable action of one gateway step. -/
inductive GAction
  | receive (payload : String) (t : Nat)
  | ackImmediate (id : Nat) (ack : String)
  | queueImmediate (id : Nat)
  | forwardQueued (id : Nat) (ack : String)
  | sleep (ms : Nat)
deriving DecidableEq

/-- One mutation step of the gateway. -/
inductive GStep : GatewayState → GAction → GatewayState → Prop
  | receive (st : GatewayState) (p : String) (t : Nat) (hp : p ≠ "") :
      GStep st (.receive p t)
        { st with messages := st.messages ++
            [{ id := st.messages.length + 1, raw := p, receivedAt := t,
               status := .received, ack := none }] }
  | fwdOk (st : GatewayState) (i : Nat) (body : Option String) (m0 : Msg)
      (hfind : st.messages.find? (fun m => m.id == i) = some m0)
      (hst : m0.status = .received) :
      GStep st (.ackImmediate i (body.getD "ACK|UNKNOWN"))
        { st with messages := (updateFirst st.messages i
            (fun m => { m with status := .forwarded,
                               ack := some (body.getD "ACK|UNKNOWN") })) }
  | fwdErr (st : GatewayState) (i : Nat) (e : String) (m0 : Msg)
      (hfind : st.messages.find? (fun m => m.id == i) = some m0)
      (hst : m0.status = .received) :
      GStep st (.queueImmediate i)
        { st with
            messages := (updateFirst st.messages i
              (fun m => { m with status := .queued })),
            retryQueue := (st.retryQueue ++
              [{ id := i, payload := m0.raw, attempts := 0, lastError := e }]) }
  | procOk (st : GatewayState) (body : Option String) (it : QItem)
      (rest : List QItem) (hq : st.retryQueue = it :: rest) :
      GStep st (.forwardQueued it.id (body.getD "ACK|UNKNOWN"))
        { st with
            messages := (updateFirst st.messages it.id
              (fun m => { m with status := .forwarded,
                                 ack := some (body.getD "ACK|UNKNOWN") })),
            retryQueue := rest }
  | procFail (st : GatewayState) (e : String) (it : QItem)
      (rest : List QItem) (hq : st.retryQueue = it :: rest) :
      GStep st (.sleep (backoffDelay (it.attempts + 1)))
        { st with retryQueue :=
            ({ it with attempts := it.attempts + 1, lastError := e } :: rest) }

/-! ## Shared lemmas -/

lemma str_append_assoc (a b c : String) : a ++ b ++ c = a ++ (b ++ c) := by
  apply String.ext
  simp [String.data_append, List.append_assoc]

/-- Characterization of the scan loop continued from an installed
candidate `n` (with `minD = dist n`): the result is a candidate whose
distance is its own, and it is either `n` itself dominating the rest, or
the first strictly better element of the rest. -/
lemma scan_from_some (dist : SafeBase → ℝ) (l : List SafeBase) :
    ∀ n : SafeBase, ∃ n' : SafeBase,
      l.foldl (scanStep dist) (some (n, dist n)) = some (n', dist n') ∧
      ((n' = n ∧ ∀ b ∈ l, dist n ≤ dist b) ∨
        (∃ l₁ l₂, l = l₁ ++ n' :: l₂ ∧ dist n' < dist n ∧
          (∀ b ∈ l₁, dist n' < dist b) ∧ (∀ b ∈ l, dist n' ≤ dist b))) := by
  induction l with
  | nil =>
    intro n
    exact ⟨n, rfl, Or.inl ⟨rfl, by simp⟩⟩
  | cons b t ih =>
    intro n
    by_cases hb : dist b < dist n
    · have hstep : scanStep dist (some (n, dist n)) b = some (b, dist b) := by
        simp [scanStep, hb]
      obtain ⟨n', heq, hcase⟩ := ih b
      refine ⟨n', ?_, ?_⟩
      · rw [List.foldl_cons, hstep]; exact heq
      · rcases hcase with ⟨hnb, hall⟩ | ⟨t₁, t₂, ht, hlt, hstrict, hle⟩
        · subst hnb
          refine Or.inr ⟨[], t, by simp, hb, by simp, ?_⟩
          intro x hx
          rcases List.mem_cons.mp hx with hx | hx
          · subst hx; exact le_refl _
          · exact hall x hx
        · refine Or.inr ⟨b :: t₁, t₂, by rw [ht]; simp, hlt.trans hb, ?_, ?_⟩
          · intro x hx
            rcases List.mem_cons.mp hx with hx | hx
            · subst hx; exact hlt
            · exact hstrict x hx
          · intro x hx
            rcases List.mem_cons.mp hx with hx | hx
            · subst hx; exact le_of_lt hlt
            · exact hle x hx
    · have hnb : dist n ≤ dist b := not_lt.mp hb
      have hstep : scanStep dist (some (n, dist n)) b = some (n, dist n) := by
        simp [scanStep, hb]
      obtain ⟨n', heq, hcase⟩ := ih n
      refine ⟨n', ?_, ?_⟩
      · rw [List.foldl_cons, hstep]; exact heq
      · rcases hcase with ⟨hnn, hall⟩ | ⟨t₁, t₂, ht, hlt, hstrict, hle⟩
        · refine Or.inl ⟨hnn, ?_⟩
          intro x hx
          rcases List.mem_cons.mp hx with hx | hx
          · subst hx; exact hnb
          · exact hall x hx
        · refine Or.inr ⟨b :: t₁, t₂, by rw [ht]; simp, hlt, ?_, ?_⟩
          · intro x hx
            rcases List.mem_cons.mp hx with hx | hx
            · subst hx; exact hlt.trans_le hnb
            · exact hstrict x hx
          · intro x hx
            rcases List.mem_cons.mp hx with hx | hx
            · subst hx; exact (hlt.trans_le hnb).le
            · exact hle x hx

/-- The scan on a non-empty directory returns the first base attaining
the minimal distance: it weakly dominates the whole directory and
strictly dominates everything before it. -/
lemma nearestScan_spec (dist : SafeBase → ℝ) (bases : List SafeBase)
    (h : bases ≠ []) :
    ∃ n l₁ l₂, nearestScan dist bases = some (n, dist n) ∧
      bases = l₁ ++ n :: l₂ ∧
      (∀ b ∈ bases, dist n ≤ dist b) ∧ (∀ b ∈ l₁, dist n < dist b) := by
  match bases with
  | [] => exact absurd rfl h
  | b :: t =>
    obtain ⟨n', heq, hcase⟩ := scan_from_some dist t b
    have hfold : nearestScan dist (b :: t) = some (n', dist n') := by
      unfold nearestScan
      rw [List.foldl_cons]
      exact heq
    rcases hcase with ⟨hnb, hall⟩ | ⟨t₁, t₂, ht, hlt, hstrict, hle⟩
    · subst hnb
      refine ⟨n', [], t, hfold, by simp, ?_, by simp⟩
      intro x hx
      rcases List.mem_cons.mp hx with hx | hx
      · subst hx; exact le_refl _
      · exact hall x hx
    · refine ⟨n', b :: t₁, t₂, hfold, by rw [ht]; simp, ?_, ?_⟩
      · intro x hx
        rcases List.mem_cons.mp hx with hx | hx
        · subst hx; exact le_of_lt hlt
        · exact hle x hx
      · intro x hx
        rcases List.mem_cons.mp hx with hx | hx
        · subst hx; exact hlt
        · exact hstrict x hx

/-- Unfolding `resolve` along a known scan result. -/
lemma resolve_of_scan (bases : List SafeBase) (lat lon : ℝ) (n : SafeBase)
    (d : ℝ)
    (h : nearestScan (fun b => haversine lat lon b.lat b.lon) bases =
      some (n, d)) :
    (resolve bases lat lon).nearest = some (n, d) ∧
    (resolve bases lat lon).capacityStatus =
      capacityStatus n.capacity n.filled ∧
    (resolve bases lat lon).ack =
      ackFmt n.id (toFixed2 d) (capacityStatus n.capacity n.filled) := by
  simp [resolve, h, capacityStatusOf]

/-- `resolve` on the empty directory. -/
lemma resolve_nil (lat lon : ℝ) :
    (resolve [] lat lon).nearest = none ∧
    (resolve [] lat lon).capacityStatus = "AVAILABLE" ∧
    (resolve [] lat lon).ack = ackFmt "NONE" "Infinity" "AVAILABLE" := by
  simp [resolve, nearestScan, capacityStatusOf]

lemma pad2_spec : ∀ k, k < 100 →
    (pad2 k).length = 2 ∧ (pad2 k).toList.all Char.isDigit := by
  decide

/-- `toFixed2` always renders with a point followed by the two-digit
fractional block. -/
lemma toFixed2_shape (x : ℝ) :
    ∃ pre k, toFixed2 x = pre ++ "." ++ pad2 k ∧ k < 100 := by
  unfold toFixed2 fixedRender
  by_cases hn : (⌊x * 100 + 1 / 2⌋ : ℤ) < 0
  · refine ⟨"-" ++ toString ((⌊x * 100 + 1 / 2⌋ : ℤ).natAbs / 100),
      (⌊x * 100 + 1 / 2⌋ : ℤ).natAbs % 100, ?_, Nat.mod_lt _ (by norm_num)⟩
    simp only [hn, if_true]
    rw [str_append_assoc, str_append_assoc]
    rw [str_append_assoc]
  · refine ⟨toString ((⌊x * 100 + 1 / 2⌋ : ℤ).toNat / 100),
      (⌊x * 100 + 1 / 2⌋ : ℤ).toNat % 100, ?_, Nat.mod_lt _ (by norm_num)⟩
    simp only [hn, if_false]

/-- The property-assignment fold, started from an arbitrary object:
a key resolves to the last token that wrote it, falling back to the
initial object. -/
lemma foldl_applyToken (l : List String) : ∀ (acc : String → Option String)
    (q : String),
    (l.foldl applyToken acc) q =
      match lastValue (l.map tokenPair) q with
      | some v => some v
      | none => acc q := by
  induction l with
  | nil => intro acc q; rfl
  | cons p l ih =>
    intro acc q
    rw [List.foldl_cons, ih]
    simp only [List.map_cons, lastValue]
    cases hrec : lastValue (l.map tokenPair) q with
    | some v => rfl
    | none =>
      simp only []
      by_cases hp : hasEq p
      · simp only [applyToken, tokenPair, hp, if_true]
        by_cases hq : q = tokenKey p
        · subst hq; simp
        · have hq' : ¬tokenKey p = q := fun h => hq h.symm
          simp [hq, hq']
      · simp only [applyToken, tokenPair, hp, Bool.false_eq_true, if_false]
        by_cases hq : q = "typeFlag"
        · subst hq; simp
        · have hq' : ¬"typeFlag" = q := fun h => hq h.symm
          simp [hq, hq']

/-- The object built by the parse loop is last-wins lookup over the
token pairs. -/
lemma payloadOf_eq_lastValue (raw q : String) :
    payloadOf raw q = lastValue (pairsOf raw) q := by
  unfold payloadOf pairsOf
  rw [foldl_applyToken]
  cases h : lastValue ((splitChar '|' raw).map tokenPair) q <;> rfl

/-- Membership in `updateFirst`: an element of the updated list is an
old element, or the image under `f` of an old element. -/
lemma updateFirst_mem {ms : List Msg} {i : Nat} {f : Msg → Msg} {m' : Msg}
    (h : m' ∈ updateFirst ms i f) :
    m' ∈ ms ∨ ∃ m, m ∈ ms ∧ m' = f m := by
  induction ms with
  | nil => simp [updateFirst] at h
  | cons m rest ih =>
    by_cases hid : m.id = i
    · simp only [updateFirst, hid, if_true] at h
      rcases List.mem_cons.mp h with h | h
      · exact Or.inr ⟨m, List.mem_cons_self .., h⟩
      · exact Or.inl (List.mem_cons_of_mem _ h)
    · simp only [updateFirst, hid, if_false] at h
      rcases List.mem_cons.mp h with h | h
      · exact Or.inl (h ▸ List.mem_cons_self ..)
      · rcases ih h with h | ⟨m0, hm0, hf⟩
        · exact Or.inl (List.mem_cons_of_mem _ h)
        · exact Or.inr ⟨m0, List.mem_cons_of_mem _ hm0, hf⟩

/-- When `find?` locates the record with the given id, `updateFirst`
touches exactly that record. -/
lemma updateFirst_mem_of_find {ms : List Msg} {i : Nat} {f : Msg → Msg}
    {m0 m' : Msg} (hfind : ms.find? (fun m => m.id == i) = some m0)
    (h : m' ∈ updateFirst ms i f) :
    m' ∈ ms ∨ (m0 ∈ ms ∧ m' = f m0) := by
  induction ms with
  | nil => simp [updateFirst] at h
  | cons m rest ih =>
    by_cases hid : m.id = i
    · have hm0 : m0 = m := by
        rw [List.find?_cons_of_pos _ (by simp [hid])] at hfind
        exact (Option.some_injective _ hfind).symm
      subst hm0
      simp only [updateFirst, hid, if_true] at h
      rcases List.mem_cons.mp h with h | h
      · exact Or.inr ⟨List.mem_cons_self .., h⟩
      · exact Or.inl (List.mem_cons_of_mem _ h)
    · rw [List.find?_cons_of_neg _ (by simp [hid])] at hfind
      simp only [updateFirst, hid, if_false] at h
      rcases List.mem_cons.mp h with h | h
      · exact Or.inl (h ▸ List.mem_cons_self ..)
      · rcases ih hfind h with h | ⟨hm0, hf⟩
        · exact Or.inl (List.mem_cons_of_mem _ h)
        · exact Or.inr ⟨List.mem_cons_of_mem _ hm0, hf⟩

/-- The status transitions the relay state machine may make on a single
record (reflexive observations included). -/
def allowedTransition (s t : MsgStatus) : Prop :=
  s = t ∨ (s = .received ∧ (t = .forwarded ∨ t = .queued)) ∨
    (s = .queued ∧ t = .forwarded)

lemma allowed_to_forwarded (s : MsgStatus) :
    allowedTransition s .forwarded := by
  cases s <;> simp [allowedTransition]

lemma allowed_refl (s : MsgStatus) : allowedTransition s s := Or.inl rfl

/-! ## Claims -/

/-- Claim C2: for every SafeBase with integer `capacity ≥ 0` and
`filled ≥ 0` selected as nearest, the capacity status in the ack is a
pure function of `(capacity, filled)`: with `free = capacity − filled`,
if `free ≤ 0` the status is FULL; otherwise if
`free < ceil(capacity × 0.2)` it is NEARLY_FULL; otherwise it is
AVAILABLE. -/
theorem capacity_status_threshold (capacity filled : ℤ)
    (hc : 0 ≤ capacity) (hf : 0 ≤ filled) :
    (capacity - filled ≤ 0 → capacityStatus capacity filled = "FULL") ∧
    (0 < capacity - filled →
      capacity - filled < ⌈(capacity : ℚ) * (2 / 10)⌉ →
      capacityStatus capacity filled = "NEARLY_FULL") ∧
    (0 < capacity - filled →
      ⌈(capacity : ℚ) * (2 / 10)⌉ ≤ capacity - filled →
      capacityStatus capacity filled = "AVAILABLE") ∧
    (∀ (bases : List SafeBase) (lat lon : ℝ) (n : SafeBase) (d : ℝ),
      nearestScan (fun b => haversine lat lon b.lat b.lon) bases =
        some (n, d) →
      n.capacity = capacity → n.filled = filled →
      (resolve bases lat lon).capacityStatus =
        capacityStatus capacity filled) := by
  refine ⟨?_, ?_, ?_, ?_⟩
  · intro h; simp [capacityStatus, h]
  · intro h1 h2; simp [capacityStatus, not_le.mpr h1, h2]
  · intro h1 h2; simp [capacityStatus, not_le.mpr h1, not_lt.mpr h2]
  · intro bases lat lon n d hscan hcap hfill
    have h := (resolve_of_scan bases lat lon n d hscan).2.1
    rw [h, hcap, hfill]

theorem capacity_status_threshold_witness :
    capacityStatus 80 70 = "NEARLY_FULL" ∧ capacityStatus 100 10 = "AVAILABLE" ∧
    capacityStatus 100 100 = "FULL" :=
  ⟨(capacity_status_threshold 80 70 (by norm_num) (by norm_num)).2.1
      (by norm_num) (by norm_num),
   (capacity_status_threshold 100 10 (by norm_num) (by norm_num)).2.2.1
      (by norm_num) (by norm_num),
   (capacity_status_threshold 100 100 (by norm_num) (by norm_num)).1
      (by norm_num)⟩

/-- Claim C6: the backoff delay slept after a failed forward attempt
equals `min(60000, 1000·2^attempts)` ms, where `attempts` has already
been incremented for that failure; for attempts 1..7 the delays are
exactly 2000, 4000, 8000, 16000, 32000, 60000, 60000 ms. -/
theorem backoff_delay_values :
    (∀ (st : GatewayState) (a : GAction) (st' : GatewayState),
      GStep st a st' → ∀ d, a = .sleep d →
      ∃ it rest, st.retryQueue = it :: rest ∧
        d = min 60000 (1000 * 2 ^ (it.attempts + 1))) ∧
    backoffDelay 1 = 2000 ∧ backoffDelay 2 = 4000 ∧ backoffDelay 3 = 8000 ∧
    backoffDelay 4 = 16000 ∧ backoffDelay 5 = 32000 ∧
    backoffDelay 6 = 60000 ∧ backoffDelay 7 = 60000 := by
  refine ⟨?_, by decide, by decide, by decide, by decide, by decide,
    by decide, by decide⟩
  intro st a st' hstep d ha
  cases hstep with
  | receive p t hp => cases ha
  | fwdOk i body m0 hfind hst => cases ha
  | fwdErr i e m0 hfind hst => cases ha
  | procOk body it rest hq => cases ha
  | procFail e it rest hq =>
    refine ⟨it, rest, hq, ?_⟩
    cases ha
    rfl

theorem backoff_delay_values_witness :
    (∃ it rest,
      (GatewayState.mk [] [QItem.mk 1 "p" 0 "e"] true).retryQueue =
        it :: rest ∧
      backoffDelay 1 = min 60000 (1000 * 2 ^ (it.attempts + 1))) ∧
    backoffDelay 1 = 2000 :=
  ⟨backoff_delay_values.1 (GatewayState.mk [] [QItem.mk 1 "p" 0 "e"] true)
      (.sleep (backoffDelay 1))
      (GatewayState.mk [] [QItem.mk 1 "p" 1 "e2"] true)
      (GStep.procFail _ "e2" (QItem.mk 1 "p" 0 "e") [] rfl)
      (backoffDelay 1) rfl,
   backoff_delay_values.2.1⟩

/-- Claim C1: for every ingested alert with parsed coordinates and a
non-empty resource directory, the SAFEBASE field of the ack is the id
of a base whose haversine distance (Earth radius 6371 km) to the alert
is minimal over the whole directory; an exact tie resolves to the first
such base in directory iteration order (every earlier base is strictly
farther).  On an empty directory SAFEBASE is NONE and the capacity
status is AVAILABLE. -/
theorem nearest_base_resolution :
    (∀ (lat lon : ℝ) (bases : List SafeBase), bases ≠ [] →
      ∃ (n : SafeBase) (l₁ l₂ : List SafeBase),
        nearestScan (fun b => haversine lat lon b.lat b.lon) bases =
          some (n, haversine lat lon n.lat n.lon) ∧
        bases = l₁ ++ n :: l₂ ∧
        (∀ b ∈ bases,
          haversine lat lon n.lat n.lon ≤ haversine lat lon b.lat b.lon) ∧
        (∀ b ∈ l₁,
          haversine lat lon n.lat n.lon < haversine lat lon b.lat b.lon) ∧
        (resolve bases lat lon).ack =
          ackFmt n.id (toFixed2 (haversine lat lon n.lat n.lon))
            (capacityStatus n.capacity n.filled)) ∧
    (∀ (lat lon : ℝ),
      (resolve [] lat lon).nearest = none ∧
      (resolve [] lat lon).capacityStatus = "AVAILABLE" ∧
      (resolve [] lat lon).ack = ackFmt "NONE" "Infinity" "AVAILABLE") := by
  constructor
  · intro lat lon bases hne
    obtain ⟨n, l₁, l₂, hscan, hsplit, hmin, hfirst⟩ :=
      nearestScan_spec (fun b => haversine lat lon b.lat b.lon) bases hne
    exact ⟨n, l₁, l₂, hscan, hsplit, hmin, hfirst,
      (resolve_of_scan bases lat lon n _ hscan).2.2⟩
  · intro lat lon
    exact resolve_nil lat lon

theorem nearest_base_resolution_witness :
    (∃ (n : SafeBase) (l₁ l₂ : List SafeBase),
      nearestScan (fun b => haversine 0 0 b.lat b.lon)
          [SafeBase.mk "B1" "N" 0 0 10 0] =
        some (n, haversine 0 0 n.lat n.lon) ∧
      [SafeBase.mk "B1" "N" 0 0 10 0] = l₁ ++ n :: l₂ ∧
      (∀ b ∈ [SafeBase.mk "B1" "N" 0 0 10 0],
        haversine 0 0 n.lat n.lon ≤ haversine 0 0 b.lat b.lon) ∧
      (∀ b ∈ l₁, haversine 0 0 n.lat n.lon < haversine 0 0 b.lat b.lon) ∧
      (resolve [SafeBase.mk "B1" "N" 0 0 10 0] 0 0).ack =
        ackFmt n.id (toFixed2 (haversine 0 0 n.lat n.lon))
          (capacityStatus n.capacity n.filled)) ∧
    (resolve [] 0 0).ack = ackFmt "NONE" "Infinity" "AVAILABLE" :=
  ⟨nearest_base_resolution.1 0 0 [SafeBase.mk "B1" "N" 0 0 10 0]
      (List.cons_ne_nil _ _),
   (nearest_base_resolution.2 0 0).2.2⟩

/-- Claim C3: the retry-queue processor never removes or reorders a
queue item except by removing the head immediately after a successful
forward of that same head; a failed attempt bumps the head's attempts,
records `lastError`, sleeps the backoff delay and leaves the head in
place (ingress steps may only append new items at the tail); the retry
step carries no bound on `attempts`, so an item is never skipped,
dropped or abandoned. -/
theorem retry_queue_discipline :
    (∀ (st : GatewayState) (a : GAction) (st' : GatewayState),
      GStep st a st' →
      (∃ app, st'.retryQueue = st.retryQueue ++ app) ∨
      (∃ it rest ack, st.retryQueue = it :: rest ∧
        a = .forwardQueued it.id ack ∧ st'.retryQueue = rest) ∨
      (∃ it rest e, st.retryQueue = it :: rest ∧
        st'.retryQueue =
          { it with attempts := it.attempts + 1, lastError := e } :: rest ∧
        a = .sleep (backoffDelay (it.attempts + 1)))) ∧
    (∀ (st : GatewayState) (it : QItem) (rest : List QItem) (e : String),
      st.retryQueue = it :: rest →
      GStep st (.sleep (backoffDelay (it.attempts + 1)))
        { st with retryQueue :=
            ({ it with attempts := it.attempts + 1, lastError := e } :: rest) }) := by
  constructor
  · intro st a st' hstep
    cases hstep with
    | receive p t hp => exact Or.inl ⟨[], by simp⟩
    | fwdOk i body m0 hfind hst => exact Or.inl ⟨[], by simp⟩
    | fwdErr i e m0 hfind hst =>
      exact Or.inl ⟨[QItem.mk i m0.raw 0 e], rfl⟩
    | procOk body it rest hq =>
      exact Or.inr (Or.inl ⟨it, rest, body.getD "ACK|UNKNOWN", hq, rfl, rfl⟩)
    | procFail e it rest hq =>
      exact Or.inr (Or.inr ⟨it, rest, e, hq, rfl, rfl⟩)
  · intro st it rest e hq
    exact GStep.procFail st e it rest hq

theorem retry_queue_discipline_witness :
    GStep (GatewayState.mk [] [QItem.mk 1 "p" 3 "e"] true)
      (.sleep (backoffDelay 4))
      (GatewayState.mk [] [QItem.mk 1 "p" 4 "boom"] true) :=
  retry_queue_discipline.2 (GatewayState.mk [] [QItem.mk 1 "p" 3 "e"] true)
    (QItem.mk 1 "p" 3 "e") [] "boom" rfl

/-- Claim C7: every RelayMessageRecord starts at `received`, and each
gateway step either leaves a record's status unchanged or moves it along
`received→forwarded`, `received→queued` or `queued→forwarded`; no other
transition (in particular `forwarded→queued` or any failed state) ever
occurs, so the only paths are `received→forwarded` and
`received→queued→forwarded`. -/
theorem message_status_machine :
    ∀ (st : GatewayState) (a : GAction) (st' : GatewayState),
      GStep st a st' → ∀ m' ∈ st'.messages,
      (∃ m ∈ st.messages, m.id = m'.id ∧
        allowedTransition m.status m'.status) ∨
      m'.status = .received := by
  intro st a st' hstep m' hm'
  cases hstep with
  | receive p t hp =>
    rcases List.mem_append.mp hm' with h | h
    · exact Or.inl ⟨m', h, rfl, allowed_refl _⟩
    · rcases List.mem_singleton.mp h with rfl
      exact Or.inr rfl
  | fwdOk i body m0 hfind hst =>
    rcases updateFirst_mem hm' with h | ⟨m, hm, rfl⟩
    · exact Or.inl ⟨m', h, rfl, allowed_refl _⟩
    · exact Or.inl ⟨m, hm, rfl, allowed_to_forwarded _⟩
  | fwdErr i e m0 hfind hst =>
    rcases updateFirst_mem_of_find hfind hm' with h | ⟨hm0, rfl⟩
    · exact Or.inl ⟨m', h, rfl, allowed_refl _⟩
    · exact Or.inl ⟨m0, hm0, rfl, Or.inr (Or.inl ⟨hst, Or.inr rfl⟩)⟩
  | procOk body it rest hq =>
    rcases updateFirst_mem hm' with h | ⟨m, hm, rfl⟩
    · exact Or.inl ⟨m', h, rfl, allowed_refl _⟩
    · exact Or.inl ⟨m, hm, rfl, allowed_to_forwarded _⟩
  | procFail e it rest hq =>
    exact Or.inl ⟨m', hm', rfl, allowed_refl _⟩

theorem message_status_machine_witness :
    (∃ m ∈ (GatewayState.mk [] [] false).messages,
      m.id = (Msg.mk 1 "SOS" 7 .received none).id ∧
      allowedTransition m.status (Msg.mk 1 "SOS" 7 .received none).status) ∨
    (Msg.mk 1 "SOS" 7 .received none).status = .received :=
  message_status_machine (GatewayState.mk [] [] false) (.receive "SOS" 7)
    (GatewayState.mk [Msg.mk 1 "SOS" 7 .received none] [] false)
    (GStep.receive (GatewayState.mk [] [] false) "SOS" 7 (by decide))
    (Msg.mk 1 "SOS" 7 .received none) (by simp)

/-- Claim C5: `POST /sms-receiver` with an absent or empty payload
answers 400 and creates no record and no queue item; for a non-empty
payload whose immediate forward fails (for any reason), the created
record's status becomes `queued`, a RetryQueueItem with `attempts = 0`
is appended, `{queued:true}` is returned with 202, and the queue
processor is triggered idempotently (a second trigger while one is
running is a no-op). -/
theorem submit_validation_and_queue :
    (∀ (st : GatewayState) (fw : ForwardOutcome) (now : Nat),
      smsReceiver st none fw now = (st, .badRequest "missing payload")) ∧
    (∀ (st : GatewayState) (fw : ForwardOutcome) (now : Nat),
      smsReceiver st (some "") fw now =
        (st, .badRequest "missing payload")) ∧
    (∀ (st : GatewayState) (p e : String) (now : Nat), p ≠ "" →
      smsReceiver st (some p) (.fail e) now =
        ({ st with
            messages := (st.messages ++
              [Msg.mk (st.messages.length + 1) p now .queued none]),
            retryQueue := (st.retryQueue ++
              [QItem.mk (st.messages.length + 1) p 0 e]) },
         .acceptedQueued)) ∧
    (∀ st : GatewayState, st.isProcessingQueue = true →
      processQueueGuard st = (st, false)) := by
  refine ⟨fun st fw now => rfl, fun st fw now => by simp [smsReceiver],
    ?_, ?_⟩
  · intro st p e now hp
    simp [smsReceiver, hp]
  · intro st h
    simp [processQueueGuard, h]

theorem submit_validation_and_queue_witness :
    smsReceiver (GatewayState.mk [] [] false) (some "SOS") (.fail "boom") 3 =
      (GatewayState.mk [Msg.mk 1 "SOS" 3 .queued none]
        [QItem.mk 1 "SOS" 0 "boom"] false, .acceptedQueued) ∧
    processQueueGuard (GatewayState.mk [] [] true) =
      (GatewayState.mk [] [] true, false) :=
  ⟨submit_validation_and_queue.2.2.1 (GatewayState.mk [] [] false)
      "SOS" "boom" 3 (by decide),
   submit_validation_and_queue.2.2.2 (GatewayState.mk [] [] true) rfl⟩

/-- Claim C10: a forward that resolves with a success response whose
body contains no ack string is still treated as a success, with the
fallback ack `ACK|UNKNOWN`: on the immediate path the record is marked
forwarded with ack `ACK|UNKNOWN` and `{ack:"ACK|UNKNOWN"}` is returned
(not an error); on the queued path the matching record is likewise
marked forwarded with `ACK|UNKNOWN` and the head is removed. -/
theorem ack_unknown_fallback :
    (∀ (st : GatewayState) (p : String) (now : Nat), p ≠ "" →
      smsReceiver st (some p) (.ok none) now =
        ({ st with messages := (st.messages ++
            [Msg.mk (st.messages.length + 1) p now .forwarded
              (some "ACK|UNKNOWN")]) },
         .okAck "ACK|UNKNOWN")) ∧
    (∀ (st : GatewayState) (it : QItem) (rest : List QItem),
      st.retryQueue = it :: rest →
      GStep st (.forwardQueued it.id "ACK|UNKNOWN")
        { st with
            messages := (updateFirst st.messages it.id
              (fun m => { m with status := .forwarded,
                                 ack := some "ACK|UNKNOWN" })),
            retryQueue := rest }) := by
  constructor
  · intro st p now hp
    simp [smsReceiver, hp]
  · intro st it rest hq
    exact GStep.procOk st none it rest hq

theorem ack_unknown_fallback_witness :
    smsReceiver (GatewayState.mk [] [] false) (some "SOS") (.ok none) 3 =
      (GatewayState.mk [Msg.mk 1 "SOS" 3 .forwarded (some "ACK|UNKNOWN")]
        [] false, .okAck "ACK|UNKNOWN") ∧
    GStep (GatewayState.mk [Msg.mk 1 "SOS" 3 .queued none]
        [QItem.mk 1 "SOS" 0 "e"] true)
      (.forwardQueued 1 "ACK|UNKNOWN")
      (GatewayState.mk [Msg.mk 1 "SOS" 3 .forwarded (some "ACK|UNKNOWN")]
        [] true) :=
  ⟨ack_unknown_fallback.1 (GatewayState.mk [] [] false) "SOS" 3 (by decide),
   ack_unknown_fallback.2
     (GatewayState.mk [Msg.mk 1 "SOS" 3 .queued none]
       [QItem.mk 1 "SOS" 0 "e"] true)
     (QItem.mk 1 "SOS" 0 "e") [] rfl⟩

/-- Modelled from the words of the tokenization claim, for comparison
with the source behaviour: the value of a token taken as everything
after the first `=`. -/
def tokenValAfterFirst (p : String) : String :=
  String.intercalate "=" ((splitChar '=' p).tail)

/-- Claim C4 as stated is false: for a token with two `=` signs the
code keeps only the segment between the first and second `=` as the
value (`const [k, v] = p.split('=')` drops the rest), not everything
after the first `=`.  On `TYPE=A=B` the parsed type is `A`, while a
split on the first `=` would give `A=B`. -/
theorem parse_split_counterexample :
    (parsePayload (fun _ => none) "T0" "TYPE=A=B").type = "A" ∧
    tokenValAfterFirst "TYPE=A=B" = "A=B" ∧
    (parsePayload (fun _ => none) "T0" "TYPE=A=B").type ≠
      tokenValAfterFirst "TYPE=A=B" := by
  refine ⟨by decide, by decide, by decide⟩

/-- Claim C4 (amended): parsing never raises (it is a total function):
the raw string is tokenized on `|`; each token containing `=` is split
on `=` and the first two segments become key and value (the value is
the text between the first and second `=`, or everything after the `=`
if there is only one); tokens without `=` are kept as an unstructured
flag under the `typeFlag` slot; a later token overrides an earlier one
with the same key; and missing or unparsable fields default to
`deviceId="UNKNOWN"`, `lat=0`, `lon=0`, `type="UNKNOWN"` and
`time=` the resolution time. -/
theorem parse_total_defaults (pf : String → Option ℚ) (nowIso raw : String) :
    parsePayload pf nowIso raw =
      { deviceId := orFalsy (lastValue (pairsOf raw) "ID") "UNKNOWN"
        lat := floatOr0 pf (lastValue (pairsOf raw) "LAT")
        lon := floatOr0 pf (lastValue (pairsOf raw) "LON")
        type := orFalsy (lastValue (pairsOf raw) "TYPE") "UNKNOWN"
        time := orFalsy (lastValue (pairsOf raw) "TIME") nowIso
        typeFlag := lastValue (pairsOf raw) "typeFlag" } := by
  simp [parsePayload, payloadOf_eq_lastValue]

/-- Claim C8 as stated is false in its "no SosEventRecord is produced"
part: when the failure strikes during resolution (the `safe_bases`
query), the `sos_events` insert has already committed; the caller gets
the internal error, yet a SosEventRecord exists. -/
theorem alert_log_counterexample :
    (sosHandler (BackendState.mk [] [] []) (some "SOS") (fun _ => none)
        5 "T" .atBasesQuery).2 = .internalError "internal" ∧
    (sosHandler (BackendState.mk [] [] []) (some "SOS") (fun _ => none)
        5 "T" .atBasesQuery).1.sosEvents =
      [SosEvent.mk "UNKNOWN" 0 0 "UNKNOWN" "T" "received"] ∧
    (sosHandler (BackendState.mk [] [] []) (some "SOS") (fun _ => none)
        5 "T" .atBasesQuery).1.smsLogs = [("SOS", 5)] := by
  refine ⟨by decide, by decide, by decide⟩

/-- Claim C8 (amended): for every ingest whose raw field is present and
non-empty, the raw string with its receipt timestamp is appended to the
Alert Log before any further persistence, and the entry remains no
matter what happens later; a later failure yields the internal error
and no ack; a failure at the SosEventRecord insert leaves no event
record, while a failure during resolution leaves the already-inserted
event record; an absent or empty raw is rejected with 400 and nothing
is written at all. -/
theorem alert_log_first (st : BackendState) (raw : String)
    (pf : String → Option ℚ) (nowMs : Nat) (nowIso : String)
    (failAt : SosFailure) (hr : raw ≠ "") :
    ((sosHandler st (some raw) pf nowMs nowIso failAt).1.smsLogs =
      st.smsLogs ++ [(raw, nowMs)]) ∧
    (failAt = .atEventInsert →
      (sosHandler st (some raw) pf nowMs nowIso failAt).2 =
        .internalError "internal" ∧
      (sosHandler st (some raw) pf nowMs nowIso failAt).1.sosEvents =
        st.sosEvents) ∧
    (failAt = .atBasesQuery →
      (sosHandler st (some raw) pf nowMs nowIso failAt).2 =
        .internalError "internal" ∧
      (sosHandler st (some raw) pf nowMs nowIso failAt).1.sosEvents =
        st.sosEvents ++
          [SosEvent.mk (parsePayload pf nowIso raw).deviceId
            (parsePayload pf nowIso raw).lat (parsePayload pf nowIso raw).lon
            (parsePayload pf nowIso raw).type (parsePayload pf nowIso raw).time
            "received"]) ∧
    (failAt = .noFail →
      (sosHandler st (some raw) pf nowMs nowIso failAt).2 =
        .okAck (resolve st.safeBases ((parsePayload pf nowIso raw).lat : ℝ)
          ((parsePayload pf nowIso raw).lon : ℝ)).ack) ∧
    (∀ fa : SosFailure,
      sosHandler st none pf nowMs nowIso fa =
        (st, .badRequest "missing raw payload") ∧
      sosHandler st (some "") pf nowMs nowIso fa =
        (st, .badRequest "missing raw payload")) := by
  cases failAt with
  | noFail =>
    refine ⟨by simp [sosHandler, hr], by simp, by simp, ?_, ?_⟩
    · intro _
      simp [sosHandler, hr]
    · intro fa
      exact ⟨rfl, by simp [sosHandler]⟩
  | atEventInsert =>
    refine ⟨by simp [sosHandler, hr], ?_, by simp, by simp, ?_⟩
    · intro _
      exact ⟨by simp [sosHandler, hr], by simp [sosHandler, hr]⟩
    · intro fa
      exact ⟨rfl, by simp [sosHandler]⟩
  | atBasesQuery =>
    refine ⟨by simp [sosHandler, hr], by simp, ?_, by simp, ?_⟩
    · intro _
      exact ⟨by simp [sosHandler, hr], by simp [sosHandler, hr]⟩
    · intro fa
      exact ⟨rfl, by simp [sosHandler]⟩

theorem alert_log_first_witness :
    ((sosHandler (BackendState.mk [] [] []) (some "SOS") (fun _ => none)
        5 "T" .atEventInsert).1.smsLogs = [] ++ [("SOS", 5)]) ∧
    ((sosHandler (BackendState.mk [] [] []) (some "SOS") (fun _ => none)
        5 "T" .atEventInsert).2 = .internalError "internal" ∧
      (sosHandler (BackendState.mk [] [] []) (some "SOS") (fun _ => none)
        5 "T" .atEventInsert).1.sosEvents = []) :=
  ⟨(alert_log_first (BackendState.mk [] [] []) "SOS" (fun _ => none)
      5 "T" .atEventInsert (by decide)).1,
   (alert_log_first (BackendState.mk [] [] []) "SOS" (fun _ => none)
      5 "T" .atEventInsert (by decide)).2.1 rfl⟩

/-- Claim C9 as stated is false for the empty directory: `minD` stays
`Infinity` and `Infinity.toFixed(2)` is `"Infinity"`, so the ack is
`ACK|SAFEBASE=NONE|DIST=InfinityKM|CAPACITY=AVAILABLE`, whose DIST part
is not a fixed-point decimal (the ack contains no decimal point at
all). -/
theorem ack_format_counterexample :
    (resolve [] 0 0).ack =
      "ACK|SAFEBASE=NONE|DIST=InfinityKM|CAPACITY=AVAILABLE" ∧
    '.' ∉ (resolve [] 0 0).ack.data := by
  have h := (resolve_nil 0 0).2.2
  constructor
  · rw [h]; rfl
  · rw [h]; decide

/-- Claim C9 (amended): for every ingested alert the ack has the exact
form `ACK|SAFEBASE=<id or NONE>|DIST=<distance>KM|CAPACITY=<status>`;
with a non-empty directory the distance is a fixed-point decimal with
exactly two decimal digits, while with an empty directory the SAFEBASE
is NONE and the distance renders as `Infinity`. -/
theorem ack_format_amended :
    (∀ (lat lon : ℝ) (bases : List SafeBase), bases ≠ [] →
      ∃ (n : SafeBase) (d : ℝ) (pre : String) (k : Nat),
        nearestScan (fun b => haversine lat lon b.lat b.lon) bases =
          some (n, d) ∧
        (resolve bases lat lon).ack =
          ackFmt n.id (pre ++ "." ++ pad2 k)
            (capacityStatus n.capacity n.filled) ∧
        k < 100 ∧ (pad2 k).length = 2 ∧
        (pad2 k).toList.all Char.isDigit) ∧
    (∀ (lat lon : ℝ),
      (resolve [] lat lon).ack =
        "ACK|SAFEBASE=NONE|DIST=InfinityKM|CAPACITY=AVAILABLE") := by
  constructor
  · intro lat lon bases hne
    obtain ⟨n, l₁, l₂, hscan, _, _, _⟩ :=
      nearestScan_spec (fun b => haversine lat lon b.lat b.lon) bases hne
    obtain ⟨pre, k, hfix, hk⟩ := toFixed2_shape (haversine lat lon n.lat n.lon)
    refine ⟨n, haversine lat lon n.lat n.lon, pre, k, hscan, ?_, hk,
      (pad2_spec k hk).1, (pad2_spec k hk).2⟩
    rw [(resolve_of_scan bases lat lon n _ hscan).2.2, hfix]
  · intro lat lon
    rw [(resolve_nil lat lon).2.2]
    rfl

theorem ack_format_amended_witness :
    (∃ (n : SafeBase) (d : ℝ) (pre : String) (k : Nat),
      nearestScan (fun b => haversine 0 0 b.lat b.lon)
          [SafeBase.mk "B1" "N" 0 0 10 0] = some (n, d) ∧
      (resolve [SafeBase.mk "B1" "N" 0 0 10 0] 0 0).ack =
        ackFmt n.id (pre ++ "." ++ pad2 k)
          (capacityStatus n.capacity n.filled) ∧
      k < 100 ∧ (pad2 k).length = 2 ∧
      (pad2 k).toList.all Char.isDigit) ∧
    (resolve [] 0 0).ack =
      "ACK|SAFEBASE=NONE|DIST=InfinityKM|CAPACITY=AVAILABLE" :=
  ⟨ack_format_amended.1 0 0 [SafeBase.mk "B1" "N" 0 0 10 0]
      (List.cons_ne_nil _ _),
   ack_format_amended.2 0 0⟩
